import Mathlib

/-!
Shallow embedding of the single-sphere ray tracer (`src/ray_tracer.py`).
Vectors are numpy 3-arrays in the source; here they are triples of reals.
`hit_sphere` (from `hittables.py`) and `Ray.pointAt` (from `ray.py`) are not
in the provided sources and are modelled from the specification.
-/

namespace RayTracer

/-- A 3-component vector, the embedding of the numpy arrays of length 3
used throughout `ray_tracer.py` for points, directions and colors. -/
@[ext]
structure Vec3 where
  x : ℝ
  y : ℝ
  z : ℝ

namespace Vec3

instance : Add Vec3 := ⟨fun a b => ⟨a.x + b.x, a.y + b.y, a.z + b.z⟩⟩

instance : Sub Vec3 := ⟨fun a b => ⟨a.x - b.x, a.y - b.y, a.z - b.z⟩⟩

instance : SMul ℝ Vec3 := ⟨fun r v => ⟨r * v.x, r * v.y, r * v.z⟩⟩

@[simp] theorem add_x (a b : Vec3) : (a + b).x = a.x + b.x := rfl

@[simp] theorem add_y (a b : Vec3) : (a + b).y = a.y + b.y := rfl

@[simp] theorem add_z (a b : Vec3) : (a + b).z = a.z + b.z := rfl

@[simp] theorem sub_x (a b : Vec3) : (a - b).x = a.x - b.x := rfl

@[simp] theorem sub_y (a b : Vec3) : (a - b).y = a.y - b.y := rfl

@[simp] theorem sub_z (a b : Vec3) : (a - b).z = a.z - b.z := rfl

@[simp] theorem smul_x (r : ℝ) (v : Vec3) : (r • v).x = r * v.x := rfl

@[simp] theorem smul_y (r : ℝ) (v : Vec3) : (r • v).y = r * v.y := rfl

@[simp] theorem smul_z (r : ℝ) (v : Vec3) : (r • v).z = r * v.z := rfl

/-- Dot product, `np.dot` on 3-vectors. -/
def dot (a b : Vec3) : ℝ := a.x * b.x + a.y * b.y + a.z * b.z

/-- Euclidean length, `np.linalg.norm` on a 3-vector:
`sqrt(x² + y² + z²)`. -/
noncomputable def norm (v : Vec3) : ℝ := Real.sqrt (v.dot v)

/-- Componentwise division of a numpy vector by a scalar (`v / s`). -/
noncomputable def divScalar (v : Vec3) (r : ℝ) : Vec3 := ⟨v.x / r, v.y / r, v.z / r⟩

@[simp] theorem divScalar_x (v : Vec3) (r : ℝ) : (v.divScalar r).x = v.x / r := rfl

@[simp] theorem divScalar_y (v : Vec3) (r : ℝ) : (v.divScalar r).y = v.y / r := rfl

@[simp] theorem divScalar_z (v : Vec3) (r : ℝ) : (v.divScalar r).z = v.z / r := rfl

end Vec3

/-- Modelled from the spec: `ray.py` is not under `src/`.  "Ray: `origin:
Vector3`, `direction: Vector3`" (§3). -/
structure Ray where
  origin : Vec3
  direction : Vec3

/-- Modelled from the spec: `ray.py` is not under `src/`.  "`point_at(t) =
origin + t * direction`" (§3, §4.2); `ray_color` invokes it as `ray(t)`. -/
noncomputable def Ray.pointAt (r : Ray) (t : ℝ) : Vec3 := r.origin + t • r.direction

/-- Quadratic coefficient `a = dot(direction, direction)` of the sphere
intersection (§4.3). -/
def hitA (ray : Ray) : ℝ := ray.direction.dot ray.direction

/-- Quadratic coefficient `b = 2 * dot(oc, direction)` with
`oc = ray.origin - center` (§4.3). -/
def hitB (center : Vec3) (ray : Ray) : ℝ := 2 * (ray.origin - center).dot ray.direction

/-- Quadratic coefficient `c = dot(oc, oc) - radius²` (§4.3). -/
def hitC (center : Vec3) (radius : ℝ) (ray : Ray) : ℝ :=
  (ray.origin - center).dot (ray.origin - center) - radius ^ 2

/-- `discriminant = b² - 4ac` of the ray–sphere quadratic (§4.3). -/
def discriminant (center : Vec3) (radius : ℝ) (ray : Ray) : ℝ :=
  hitB center ray ^ 2 - 4 * hitA ray * hitC center radius ray

/-- Modelled from the spec: `hittables.py` is not under `src/`.  §4.3: if the
discriminant is negative return the sentinel `-1.0`, otherwise return the
nearer root `(-b - sqrt(discriminant)) / (2a)`, with no positivity check. -/
noncomputable def hit_sphere (center : Vec3) (radius : ℝ) (ray : Ray) : ℝ :=
  if discriminant center radius ray < 0 then -1
  else (-hitB center ray - Real.sqrt (discriminant center radius ray)) / (2 * hitA ray)

/-- `ray_color` from `src/ray_tracer.py`: sphere-normal shading on a hit
(`t > 0`), sky gradient otherwise. -/
noncomputable def ray_color (ray : Ray) : Vec3 :=
  let sphere_origin : Vec3 := ⟨0, 0, -1⟩
  let sphere_radius : ℝ := 0.5
  let t := hit_sphere sphere_origin sphere_radius ray
  if 0 < t then
    let normal := ray.pointAt t - (⟨0, 0, -1⟩ : Vec3)
    let unit_normal := normal.divScalar normal.norm
    (0.5 : ℝ) • (⟨unit_normal.x + 1, unit_normal.y + 1, unit_normal.z + 1⟩ : Vec3)
  else
    let unit_direction := ray.direction.divScalar ray.direction.norm
    let s := 0.5 * unit_direction.y + 0.5
    (1 - s) • (⟨1.0, 1.0, 1.0⟩ : Vec3) + s • (⟨0.5, 0.7, 1.0⟩ : Vec3)

/-- Python `int()` applied to a float: truncation toward zero. -/
noncomputable def pyInt (a : ℝ) : ℤ := if 0 ≤ a then ⌊a⌋ else ⌈a⌉

/-- The pixel line built by `write_color`:
`rgb_string = " red green blue\n"` with each channel `int(255.999 * c)`. -/
noncomputable def rgbLine (pixel_color : Vec3) : String :=
  " " ++ toString (pyInt (255.999 * pixel_color.x)) ++
  " " ++ toString (pyInt (255.999 * pixel_color.y)) ++
  " " ++ toString (pyInt (255.999 * pixel_color.z)) ++ "\n"

/-- `write_color` from `src/ray_tracer.py`, with the output file handle
modelled as the string written so far: appends one `rgbLine`. -/
noncomputable def write_color (out_file : String) (pixel_color : Vec3) : String :=
  out_file ++ rgbLine pixel_color

/-! Constants of `main` (`src/ray_tracer.py`, lines 41-55). -/

noncomputable def aspect_ratio : ℝ := 16 / 9

def image_width : ℕ := 1000

/-- `image_height = int(image_width / aspect_ratio)`. -/
noncomputable def image_height : ℤ := pyInt ((image_width : ℝ) / aspect_ratio)

def viewport_height : ℝ := 2.0

noncomputable def viewport_width : ℝ := aspect_ratio * viewport_height

def focal_length : ℝ := 1.0

def origin : Vec3 := ⟨0, 0, 0⟩

noncomputable def horizontal : Vec3 := ⟨viewport_width, 0, 0⟩

def vertical : Vec3 := ⟨0, viewport_height, 0⟩

noncomputable def lower_left_corner : Vec3 :=
  origin - horizontal.divScalar 2 - vertical.divScalar 2 - (⟨0, 0, focal_length⟩ : Vec3)

/-- The ray constructed for pixel column `i`, row `j` in the render loop:
`Ray(origin, direction=lower_left_corner + u*horizontal + v*vertical - origin)`
with `u = i/(image_width-1)` and `v = j/(image_height-1)`. -/
noncomputable def cameraRay (i j : ℕ) : Ray :=
  ⟨origin,
    lower_left_corner + ((i : ℝ) / ((image_width : ℝ) - 1)) • horizontal
      + ((j : ℝ) / ((image_height : ℝ) - 1)) • vertical - origin⟩

/-- The PPM header written by `main`: `"P3\n{image_width} {image_height}\n255\n"`. -/
noncomputable def header : String :=
  "P3\n" ++ toString image_width ++ " " ++ toString image_height ++ "\n255\n"

/-- The row indices traversed by `main`: `reversed(range(image_height))`. -/
noncomputable def renderRows : List ℕ := (List.range image_height.toNat).reverse

/-- One row of the render loop: write every pixel `i = 0 .. image_width-1`
of row `j` to the file (innermost `for i in range(image_width)`). -/
noncomputable def renderRow (out_file : String) (j : ℕ) : String :=
  (List.range image_width).foldl (fun acc i => write_color acc (ray_color (cameraRay i j))) out_file

/-- The render driver of `main`, with the file handle modelled as the string
written so far: write the header, then every row top to bottom. -/
noncomputable def runRender (file0 : String) : String :=
  renderRows.foldl renderRow (file0 ++ header)

/-- The pixel line of column `i`, row `j`. -/
noncomputable def pixelLine (i j : ℕ) : String := rgbLine (ray_color (cameraRay i j))

/-- The body pixel lines in emission order: rows descending from
`image_height - 1` to `0`, columns ascending. -/
noncomputable def renderLines : List String :=
  renderRows.flatMap fun j => (List.range image_width).map fun i => pixelLine i j

/-- State of a render run that also tracks the progress counter of the
`tqdm` wrapper around the row loop (one tick per row). -/
structure RenderState where
  out : String
  progress : ℕ

/-- One row of the render loop together with the `tqdm` progress tick. -/
noncomputable def renderRowTqdm (st : RenderState) (j : ℕ) : RenderState :=
  ⟨renderRow st.out j, st.progress + 1⟩

/-- A full render run threading the `tqdm` progress counter, starting from
progress value `p0` and an empty (`"w+"`-truncated) file. -/
noncomputable def runRenderTqdm (p0 : ℕ) : RenderState :=
  renderRows.foldl renderRowTqdm ⟨header, p0⟩

/-! ### Helper lemmas -/

/-- On a miss (`t ≤ 0`), `ray_color` takes the background-gradient branch. -/
theorem ray_color_of_miss (r : Ray) (h : hit_sphere ⟨0, 0, -1⟩ 0.5 r ≤ 0) :
    ray_color r =
      (1 - (0.5 * (r.direction.divScalar r.direction.norm).y + 0.5)) • (⟨1.0, 1.0, 1.0⟩ : Vec3)
        + (0.5 * (r.direction.divScalar r.direction.norm).y + 0.5) • (⟨0.5, 0.7, 1.0⟩ : Vec3) := by
  simp only [ray_color]
  rw [if_neg (not_lt.mpr h)]

/-- On a hit (`t > 0`), `ray_color` takes the normal-shading branch. -/
theorem ray_color_of_hit (r : Ray) (h : 0 < hit_sphere ⟨0, 0, -1⟩ 0.5 r) :
    ray_color r =
      (0.5 : ℝ) •
        (⟨((r.pointAt (hit_sphere ⟨0, 0, -1⟩ 0.5 r) - (⟨0, 0, -1⟩ : Vec3)).divScalar
            (r.pointAt (hit_sphere ⟨0, 0, -1⟩ 0.5 r) - (⟨0, 0, -1⟩ : Vec3)).norm).x + 1,
          ((r.pointAt (hit_sphere ⟨0, 0, -1⟩ 0.5 r) - (⟨0, 0, -1⟩ : Vec3)).divScalar
            (r.pointAt (hit_sphere ⟨0, 0, -1⟩ 0.5 r) - (⟨0, 0, -1⟩ : Vec3)).norm).y + 1,
          ((r.pointAt (hit_sphere ⟨0, 0, -1⟩ 0.5 r) - (⟨0, 0, -1⟩ : Vec3)).divScalar
            (r.pointAt (hit_sphere ⟨0, 0, -1⟩ 0.5 r) - (⟨0, 0, -1⟩ : Vec3)).norm).z + 1⟩ :
          Vec3) := by
  simp only [ray_color]
  rw [if_pos h]

/-- A ray fired straight up from the camera origin misses the sphere:
the discriminant is `-3 < 0`, so `hit_sphere` returns the sentinel. -/
theorem hit_sphere_up : hit_sphere ⟨0, 0, -1⟩ 0.5 ⟨⟨0, 0, 0⟩, ⟨0, 1, 0⟩⟩ = -1 := by
  unfold hit_sphere
  rw [if_pos]
  norm_num [discriminant, hitA, hitB, hitC, Vec3.dot]

/-- A ray fired straight down from the camera origin misses the sphere. -/
theorem hit_sphere_down : hit_sphere ⟨0, 0, -1⟩ 0.5 ⟨⟨0, 0, 0⟩, ⟨0, -1, 0⟩⟩ = -1 := by
  unfold hit_sphere
  rw [if_pos]
  norm_num [discriminant, hitA, hitB, hitC, Vec3.dot]

theorem norm_unit_y : Vec3.norm ⟨0, 1, 0⟩ = 1 := by
  rw [Vec3.norm]
  norm_num [Vec3.dot]

theorem norm_neg_unit_y : Vec3.norm ⟨0, -1, 0⟩ = 1 := by
  rw [Vec3.norm]
  norm_num [Vec3.dot]

theorem ray_color_up : ray_color ⟨⟨0, 0, 0⟩, ⟨0, 1, 0⟩⟩ = ⟨0.5, 0.7, 1.0⟩ := by
  rw [ray_color_of_miss _ (by rw [hit_sphere_up]; norm_num)]
  ext <;> norm_num [norm_unit_y]

theorem ray_color_down : ray_color ⟨⟨0, 0, 0⟩, ⟨0, -1, 0⟩⟩ = ⟨1.0, 1.0, 1.0⟩ := by
  rw [ray_color_of_miss _ (by rw [hit_sphere_down]; norm_num)]
  ext <;> norm_num [norm_neg_unit_y]

/-! ### Claim C1 -/

/-- C1, counterexample: the ray straight up from the origin misses the sphere
and has normalized direction with y-component `1`, yet `ray_color` returns
`(0.5, 0.7, 1.0)`, not `(1, 1, 1)` as the claim states: the claim has the two
gradient endpoints swapped. -/
theorem c1_background_endpoints_counterexample :
    hit_sphere ⟨0, 0, -1⟩ 0.5 ⟨⟨0, 0, 0⟩, ⟨0, 1, 0⟩⟩ ≤ 0 ∧
    ((⟨0, 1, 0⟩ : Vec3).divScalar (Vec3.norm ⟨0, 1, 0⟩)).y = 1 ∧
    ray_color ⟨⟨0, 0, 0⟩, ⟨0, 1, 0⟩⟩ ≠ ⟨1.0, 1.0, 1.0⟩ ∧
    ray_color ⟨⟨0, 0, 0⟩, ⟨0, 1, 0⟩⟩ = ⟨0.5, 0.7, 1.0⟩ := by
  refine ⟨by rw [hit_sphere_up]; norm_num, by simp [norm_unit_y], ?_, ray_color_up⟩
  rw [ray_color_up]
  intro h
  have hx := congrArg Vec3.x h
  norm_num at hx

/-- C1, amended: for a ray that misses the sphere (`hit_sphere ≤ 0`), if the
normalized direction has y-component `1` (straight up) `ray_color` returns
exactly `(0.5, 0.7, 1.0)`, and if it has y-component `-1` (straight down)
`ray_color` returns exactly `(1, 1, 1)`. -/
theorem c1_background_endpoints (r : Ray)
    (hmiss : hit_sphere ⟨0, 0, -1⟩ 0.5 r ≤ 0) :
    ((r.direction.divScalar r.direction.norm).y = 1 → ray_color r = ⟨0.5, 0.7, 1.0⟩) ∧
    ((r.direction.divScalar r.direction.norm).y = -1 → ray_color r = ⟨1.0, 1.0, 1.0⟩) := by
  rw [ray_color_of_miss r hmiss]
  constructor <;> intro hy <;> rw [hy] <;> ext <;> norm_num

/-- C1, witness: the amended theorem applied to the straight-down ray. -/
theorem c1_background_endpoints_witness :
    ray_color ⟨⟨0, 0, 0⟩, ⟨0, -1, 0⟩⟩ = ⟨1.0, 1.0, 1.0⟩ :=
  (c1_background_endpoints ⟨⟨0, 0, 0⟩, ⟨0, -1, 0⟩⟩ (by rw [hit_sphere_down]; norm_num)).2
    (by simp [norm_neg_unit_y])

/-! ### Claim C2 -/

/-- C2: for every ray with nonzero direction on which the sphere intersection
returns `t ≤ 0`, `ray_color` returns `(1-s)*(1,1,1) + s*(0.5,0.7,1.0)` with
`s = 0.5*y + 0.5`, `y` the y-component of the normalized direction. -/
theorem c2_background_blend (r : Ray) (_hd : r.direction ≠ ⟨0, 0, 0⟩)
    (hmiss : hit_sphere ⟨0, 0, -1⟩ 0.5 r ≤ 0) :
    ray_color r =
      (1 - (0.5 * (r.direction.divScalar r.direction.norm).y + 0.5)) • (⟨1.0, 1.0, 1.0⟩ : Vec3)
        + (0.5 * (r.direction.divScalar r.direction.norm).y + 0.5) • (⟨0.5, 0.7, 1.0⟩ : Vec3) :=
  ray_color_of_miss r hmiss

/-- C2, witness: the theorem applied to the straight-up ray. -/
theorem c2_background_blend_witness :
    ray_color ⟨⟨0, 0, 0⟩, ⟨0, 1, 0⟩⟩ =
      (1 - (0.5 * ((⟨0, 1, 0⟩ : Vec3).divScalar (Vec3.norm ⟨0, 1, 0⟩)).y + 0.5))
          • (⟨1.0, 1.0, 1.0⟩ : Vec3)
        + (0.5 * ((⟨0, 1, 0⟩ : Vec3).divScalar (Vec3.norm ⟨0, 1, 0⟩)).y + 0.5)
          • (⟨0.5, 0.7, 1.0⟩ : Vec3) :=
  c2_background_blend ⟨⟨0, 0, 0⟩, ⟨0, 1, 0⟩⟩ (by simp)
    (by rw [hit_sphere_up]; norm_num)

/-- The on-axis ray from the camera origin toward the sphere center hits the
near surface at `t = 0.5`: the discriminant is `1`, `b = -2`, `a = 1`. -/
theorem hit_sphere_axis : hit_sphere ⟨0, 0, -1⟩ 0.5 ⟨⟨0, 0, 0⟩, ⟨0, 0, -1⟩⟩ = 0.5 := by
  have hd : discriminant ⟨0, 0, -1⟩ 0.5 ⟨⟨0, 0, 0⟩, ⟨0, 0, -1⟩⟩ = 1 := by
    norm_num [discriminant, hitA, hitB, hitC, Vec3.dot]
  have hb : hitB ⟨0, 0, -1⟩ ⟨⟨0, 0, 0⟩, ⟨0, 0, -1⟩⟩ = -2 := by
    norm_num [hitB, Vec3.dot]
  have ha : hitA ⟨⟨0, 0, 0⟩, ⟨0, 0, -1⟩⟩ = 1 := by
    norm_num [hitA, Vec3.dot]
  unfold hit_sphere
  rw [if_neg (by rw [hd]; norm_num), hd, hb, ha, Real.sqrt_one]
  norm_num

/-! ### Claim C3 -/

/-- C3: `hit_sphere` returns the sentinel `-1.0` exactly when the discriminant
is negative, and otherwise the nearer root `(-b - sqrt(disc)) / (2a)` with no
positivity check; the caller `ray_color` shades the sphere when `t > 0` and
falls through to the background for any `t ≤ 0` (sentinel included); and on
the axis ray from the origin toward `(0,0,-1)` it returns `t = 0.5`. -/
theorem c3_hit_sphere_policy :
    (∀ (c : Vec3) (rad : ℝ) (r : Ray),
      discriminant c rad r < 0 → hit_sphere c rad r = -1) ∧
    (∀ (c : Vec3) (rad : ℝ) (r : Ray), 0 ≤ discriminant c rad r →
      hit_sphere c rad r =
        (-hitB c r - Real.sqrt (discriminant c rad r)) / (2 * hitA r)) ∧
    (∀ r : Ray, 0 < hit_sphere ⟨0, 0, -1⟩ 0.5 r →
      ray_color r =
        (0.5 : ℝ) •
          (⟨((r.pointAt (hit_sphere ⟨0, 0, -1⟩ 0.5 r) - (⟨0, 0, -1⟩ : Vec3)).divScalar
              (r.pointAt (hit_sphere ⟨0, 0, -1⟩ 0.5 r) - (⟨0, 0, -1⟩ : Vec3)).norm).x + 1,
            ((r.pointAt (hit_sphere ⟨0, 0, -1⟩ 0.5 r) - (⟨0, 0, -1⟩ : Vec3)).divScalar
              (r.pointAt (hit_sphere ⟨0, 0, -1⟩ 0.5 r) - (⟨0, 0, -1⟩ : Vec3)).norm).y + 1,
            ((r.pointAt (hit_sphere ⟨0, 0, -1⟩ 0.5 r) - (⟨0, 0, -1⟩ : Vec3)).divScalar
              (r.pointAt (hit_sphere ⟨0, 0, -1⟩ 0.5 r) - (⟨0, 0, -1⟩ : Vec3)).norm).z + 1⟩ :
            Vec3)) ∧
    (∀ r : Ray, hit_sphere ⟨0, 0, -1⟩ 0.5 r ≤ 0 →
      ray_color r =
        (1 - (0.5 * (r.direction.divScalar r.direction.norm).y + 0.5))
            • (⟨1.0, 1.0, 1.0⟩ : Vec3)
          + (0.5 * (r.direction.divScalar r.direction.norm).y + 0.5)
            • (⟨0.5, 0.7, 1.0⟩ : Vec3)) ∧
    hit_sphere ⟨0, 0, -1⟩ 0.5 ⟨⟨0, 0, 0⟩, ⟨0, 0, -1⟩⟩ = 0.5 := by
  refine ⟨fun c rad r h => ?_, fun c rad r h => ?_, ray_color_of_hit,
    ray_color_of_miss, hit_sphere_axis⟩
  · unfold hit_sphere
    rw [if_pos h]
  · unfold hit_sphere
    rw [if_neg (not_lt.mpr h)]

/-- C3, witness: the sentinel branch of the policy applied to the straight-up
ray, whose discriminant is `-3`. -/
theorem c3_hit_sphere_policy_witness :
    hit_sphere ⟨0, 0, -1⟩ 0.5 ⟨⟨0, 0, 0⟩, ⟨0, 1, 0⟩⟩ = -1 :=
  c3_hit_sphere_policy.1 ⟨0, 0, -1⟩ 0.5 ⟨⟨0, 0, 0⟩, ⟨0, 1, 0⟩⟩
    (by norm_num [discriminant, hitA, hitB, hitC, Vec3.dot])

/-! ### Claim C4 -/

/-- C4: whenever `hit_sphere` against the fixed sphere returns `t > 0`,
`ray_color` returns `0.5 * (N + (1,1,1))` where `N` is the normalization of
`point_at(t) - center`. -/
theorem c4_hit_shading (r : Ray) (t : ℝ)
    (ht : hit_sphere ⟨0, 0, -1⟩ 0.5 r = t) (hpos : 0 < t) :
    ray_color r =
      (0.5 : ℝ) • ((r.pointAt t - (⟨0, 0, -1⟩ : Vec3)).divScalar
          (r.pointAt t - (⟨0, 0, -1⟩ : Vec3)).norm + (⟨1.0, 1.0, 1.0⟩ : Vec3)) := by
  subst ht
  rw [ray_color_of_hit r hpos]
  ext <;> norm_num

/-- C4, witness: the theorem applied to the on-axis ray, which hits at
`t = 0.5`. -/
theorem c4_hit_shading_witness :
    ray_color ⟨⟨0, 0, 0⟩, ⟨0, 0, -1⟩⟩ =
      (0.5 : ℝ) •
        (((⟨⟨0, 0, 0⟩, ⟨0, 0, -1⟩⟩ : Ray).pointAt 0.5 - (⟨0, 0, -1⟩ : Vec3)).divScalar
            ((⟨⟨0, 0, 0⟩, ⟨0, 0, -1⟩⟩ : Ray).pointAt 0.5 - (⟨0, 0, -1⟩ : Vec3)).norm
          + (⟨1.0, 1.0, 1.0⟩ : Vec3)) :=
  c4_hit_shading ⟨⟨0, 0, 0⟩, ⟨0, 0, -1⟩⟩ 0.5 hit_sphere_axis (by norm_num)

/-- `int()` agrees with the floor on nonnegative reals. -/
theorem pyInt_eq_floor (a : ℝ) (h : 0 ≤ a) : pyInt a = ⌊a⌋ := by
  rw [pyInt, if_pos h]

/-- `image_height = int(1000 / (16/9)) = int(562.5) = 562`. -/
theorem image_height_eq : image_height = 562 := by
  have h : (image_width : ℝ) / aspect_ratio = 562.5 := by
    norm_num [image_width, aspect_ratio]
  rw [image_height, pyInt, if_pos (by rw [h]; norm_num), h, Int.floor_eq_iff]
  constructor <;> norm_num

/-! ### Claim C5 -/

/-- C5: `write_color` appends exactly one line `" R G B\n"` whose channel
integers are `int(255.999 * channel)`, Python truncation toward zero; on
nonnegative channels this truncation agrees with the floor, and the input
`(0.0, 0.5, 1.0)` maps to the integers `(0, 127, 255)`. -/
theorem c5_write_color (out : String) (c : Vec3) :
    write_color out c =
      out ++ (" " ++ toString (pyInt (255.999 * c.x)) ++ " " ++ toString (pyInt (255.999 * c.y))
        ++ " " ++ toString (pyInt (255.999 * c.z)) ++ "\n") ∧
    (∀ a : ℝ, 0 ≤ a → pyInt a = ⌊a⌋) ∧
    pyInt (255.999 * (0.0 : ℝ)) = 0 ∧
    pyInt (255.999 * (0.5 : ℝ)) = 127 ∧
    pyInt (255.999 * (1.0 : ℝ)) = 255 := by
  refine ⟨rfl, pyInt_eq_floor, ?_, ?_, ?_⟩
  · rw [pyInt_eq_floor _ (by norm_num), Int.floor_eq_iff]
    norm_num
  · rw [pyInt_eq_floor _ (by norm_num), Int.floor_eq_iff]
    norm_num
  · rw [pyInt_eq_floor _ (by norm_num), Int.floor_eq_iff]
    norm_num

/-- C5, witness: the line written for pixel color `(0.0, 0.5, 1.0)`, and the
floor agreement discharged at `255.999 * 0.5`. -/
theorem c5_write_color_witness :
    write_color "" ⟨0.0, 0.5, 1.0⟩ =
      "" ++ (" " ++ toString (pyInt (255.999 * (0.0 : ℝ)))
        ++ " " ++ toString (pyInt (255.999 * (0.5 : ℝ)))
        ++ " " ++ toString (pyInt (255.999 * (1.0 : ℝ))) ++ "\n") ∧
    pyInt ((255.999 : ℝ) * 0.5) = ⌊(255.999 : ℝ) * 0.5⌋ :=
  ⟨(c5_write_color "" ⟨0.0, 0.5, 1.0⟩).1,
    (c5_write_color "" ⟨0.0, 0.5, 1.0⟩).2.1 _ (by norm_num)⟩

/-! ### Claim C6 -/

/-- C6: the pixel `(i, j)` ray starts at the origin with direction
`lower_left_corner + u*horizontal + v*vertical - origin`, where
`u = i/(image_width-1)`, `v = j/(image_height-1)`, and the viewport satisfies
`lower_left_corner = origin - horizontal/2 - vertical/2 - (0,0,focal_length)`. -/
theorem c6_camera_ray (i j : ℕ) (_hi : i < image_width) (_hj : (j : ℤ) < image_height) :
    cameraRay i j =
      ⟨origin,
        lower_left_corner + ((i : ℝ) / ((image_width : ℝ) - 1)) • horizontal
          + ((j : ℝ) / ((image_height : ℝ) - 1)) • vertical - origin⟩ ∧
    lower_left_corner =
      origin - horizontal.divScalar 2 - vertical.divScalar 2 - (⟨0, 0, focal_length⟩ : Vec3) :=
  ⟨rfl, rfl⟩

/-- C6, witness: the theorem applied to the bottom-left pixel `(0, 0)`. -/
theorem c6_camera_ray_witness :
    cameraRay 0 0 =
      ⟨origin,
        lower_left_corner + (((0 : ℕ) : ℝ) / ((image_width : ℝ) - 1)) • horizontal
          + (((0 : ℕ) : ℝ) / ((image_height : ℝ) - 1)) • vertical - origin⟩ :=
  (c6_camera_ray 0 0 (by norm_num [image_width]) (by rw [image_height_eq]; norm_num)).1

/-- Concatenation of a list of output lines into the file text. -/
noncomputable def textOf : List String → String
  | [] => ""
  | s :: rest => s ++ textOf rest

theorem textOf_append : ∀ l₁ l₂ : List String, textOf (l₁ ++ l₂) = textOf l₁ ++ textOf l₂
  | [], l₂ => by simp [textOf]
  | a :: as, l₂ => by
    rw [List.cons_append]
    show a ++ textOf (as ++ l₂) = (a ++ textOf as) ++ textOf l₂
    rw [textOf_append as l₂, String.append_assoc]

/-- A left fold that appends `f i` for each index writes the concatenation of
the mapped lines after the initial contents. -/
theorem foldl_append_textOf (f : ℕ → String) :
    ∀ (l : List ℕ) (out : String),
      l.foldl (fun acc i => acc ++ f i) out = out ++ textOf (l.map f)
  | [], out => by simp [textOf]
  | a :: as, out => by
    simp only [List.foldl_cons, List.map_cons, textOf, foldl_append_textOf f as,
      String.append_assoc]

/-- One render row appends exactly the pixel lines of that row, columns
ascending. -/
theorem renderRow_eq (out : String) (j : ℕ) :
    renderRow out j = out ++ textOf ((List.range image_width).map fun i => pixelLine i j) :=
  foldl_append_textOf (fun i => pixelLine i j) (List.range image_width) out

/-- The row loop appends the rows' pixel lines in traversal order. -/
theorem foldl_renderRow :
    ∀ (l : List ℕ) (s : String),
      l.foldl renderRow s =
        s ++ textOf (l.map fun j => textOf ((List.range image_width).map fun i => pixelLine i j))
  | [], s => by
    rw [List.foldl_nil, List.map_nil]
    exact (String.append_empty s).symm
  | a :: as, s => by
    rw [List.foldl_cons, renderRow_eq, foldl_renderRow as, List.map_cons]
    show (s ++ _) ++ _ = s ++ (_ ++ _)
    rw [String.append_assoc]

theorem textOf_flatMap (f : ℕ → List String) :
    ∀ l : List ℕ, textOf (l.flatMap f) = textOf (l.map fun j => textOf (f j))
  | [] => by simp [textOf]
  | a :: as => by
    simp only [List.flatMap_cons, List.map_cons, textOf_append, textOf, textOf_flatMap f as]

/-! ### Claim C7 -/

/-- C7: the serialized render output is the header `"P3\n{W} {H}\n255\n"`
followed by exactly `image_width * image_height` pixel lines, rows descending
from `image_height - 1` to `0` and columns ascending from `0` to
`image_width - 1`. -/
theorem c7_output_structure :
    runRender "" = header ++ textOf renderLines ∧
    renderLines = (List.range image_height.toNat).reverse.flatMap
      (fun j => (List.range image_width).map fun i => pixelLine i j) ∧
    renderLines.length = image_width * image_height.toNat ∧
    renderLines.length = 562000 ∧
    header = "P3\n" ++ toString image_width ++ " " ++ toString image_height ++ "\n255\n" := by
  have hlen : renderLines.length = image_width * image_height.toNat := by
    rw [renderLines, List.length_flatMap, renderRows, List.map_reverse, List.sum_reverse]
    simp only [Function.comp_def, List.length_map, List.length_range]
    rw [List.map_const', List.sum_replicate, List.length_range, smul_eq_mul, Nat.mul_comm]
  refine ⟨?_, rfl, hlen, ?_, rfl⟩
  · rw [runRender, foldl_renderRow, renderLines, textOf_flatMap, String.empty_append]
  · rw [hlen, image_height_eq]
    rfl

/-! ### Claim C8 -/

/-- The written file contents do not depend on the progress counter threaded
through the row loop. -/
theorem foldl_renderRowTqdm_out :
    ∀ (l : List ℕ) (s : String) (p : ℕ),
      (l.foldl renderRowTqdm ⟨s, p⟩).out = l.foldl renderRow s
  | [], _, _ => rfl
  | a :: as, s, p => by
    rw [List.foldl_cons, List.foldl_cons]
    exact foldl_renderRowTqdm_out as (renderRow s a) (p + 1)

/-- C8: a render run is deterministic: the bytes written are a function of the
fixed scene and image constants only, independent of the progress-display
state, so two runs with identical parameters produce byte-identical output. -/
theorem c8_render_deterministic (p₁ p₂ : ℕ) :
    (runRenderTqdm p₁).out = (runRenderTqdm p₂).out ∧
    (runRenderTqdm p₁).out = runRender "" := by
  have h : ∀ p : ℕ, (runRenderTqdm p).out = runRender "" := by
    intro p
    rw [runRenderTqdm, runRender, String.empty_append, foldl_renderRowTqdm_out]
  exact ⟨(h p₁).trans (h p₂).symm, h p₁⟩

/-! ### Bounds on normalized components (for C9, C10) -/

theorem abs_x_le_norm (v : Vec3) : |v.x| ≤ v.norm := by
  rw [Vec3.norm, ← Real.sqrt_sq_eq_abs]
  apply Real.sqrt_le_sqrt
  rw [Vec3.dot]
  nlinarith [mul_self_nonneg v.y, mul_self_nonneg v.z]

theorem abs_y_le_norm (v : Vec3) : |v.y| ≤ v.norm := by
  rw [Vec3.norm, ← Real.sqrt_sq_eq_abs]
  apply Real.sqrt_le_sqrt
  rw [Vec3.dot]
  nlinarith [mul_self_nonneg v.x, mul_self_nonneg v.z]

theorem abs_z_le_norm (v : Vec3) : |v.z| ≤ v.norm := by
  rw [Vec3.norm, ← Real.sqrt_sq_eq_abs]
  apply Real.sqrt_le_sqrt
  rw [Vec3.dot]
  nlinarith [mul_self_nonneg v.x, mul_self_nonneg v.y]

/-- A component divided by the Euclidean norm lies in `[-1, 1]` (also when the
norm is zero, with the division-by-zero convention of the embedding). -/
theorem div_norm_bounds (v : Vec3) (c : ℝ) (h : |c| ≤ v.norm) :
    -1 ≤ c / v.norm ∧ c / v.norm ≤ 1 := by
  have hn : 0 ≤ v.norm := Real.sqrt_nonneg _
  rcases eq_or_lt_of_le hn with h0 | h0
  · rw [← h0, div_zero]
    norm_num
  · have habs := abs_le.mp h
    constructor
    · rw [le_div_iff₀ h0]
      linarith [habs.1]
    · rw [div_le_one h0]
      exact habs.2

theorem unit_comp_bounds (v : Vec3) :
    (-1 ≤ v.x / v.norm ∧ v.x / v.norm ≤ 1) ∧
    (-1 ≤ v.y / v.norm ∧ v.y / v.norm ≤ 1) ∧
    (-1 ≤ v.z / v.norm ∧ v.z / v.norm ≤ 1) :=
  ⟨div_norm_bounds v v.x (abs_x_le_norm v), div_norm_bounds v v.y (abs_y_le_norm v),
    div_norm_bounds v v.z (abs_z_le_norm v)⟩

/-- Every component of every shaded color lies in `[0, 1]`: the hit branch is
`0.5*(n+1)` for unit-normal components, the background branch is a convex
blend of white and sky blue. -/
theorem ray_color_mem_unit (r : Ray) :
    (0 ≤ (ray_color r).x ∧ (ray_color r).x ≤ 1) ∧
    (0 ≤ (ray_color r).y ∧ (ray_color r).y ≤ 1) ∧
    (0 ≤ (ray_color r).z ∧ (ray_color r).z ≤ 1) := by
  by_cases h : 0 < hit_sphere ⟨0, 0, -1⟩ 0.5 r
  · rw [ray_color_of_hit r h]
    set v := r.pointAt (hit_sphere ⟨0, 0, -1⟩ 0.5 r) - (⟨0, 0, -1⟩ : Vec3) with hv
    obtain ⟨hx, hy, hz⟩ := unit_comp_bounds v
    refine ⟨⟨?_, ?_⟩, ⟨?_, ?_⟩, ⟨?_, ?_⟩⟩ <;>
      simp only [Vec3.smul_x, Vec3.smul_y, Vec3.smul_z, Vec3.divScalar_x, Vec3.divScalar_y,
        Vec3.divScalar_z] <;>
      [linarith [hx.1]; linarith [hx.2]; linarith [hy.1]; linarith [hy.2];
        linarith [hz.1]; linarith [hz.2]]
  · rw [ray_color_of_miss r (not_lt.mp h)]
    obtain ⟨-, hy, -⟩ := unit_comp_bounds r.direction
    refine ⟨⟨?_, ?_⟩, ⟨?_, ?_⟩, ⟨?_, ?_⟩⟩ <;>
      simp only [Vec3.add_x, Vec3.add_y, Vec3.add_z, Vec3.smul_x, Vec3.smul_y, Vec3.smul_z,
        Vec3.divScalar_x, Vec3.divScalar_y, Vec3.divScalar_z] <;>
      nlinarith [hy.1, hy.2]

/-- On a channel in `[0, 1]`, the emitted integer `int(255.999 * channel)`
lies in `[0, 255]`. -/
theorem pyInt_byteRange (a : ℝ) (h0 : 0 ≤ a) (h1 : a ≤ 1) :
    0 ≤ pyInt (255.999 * a) ∧ pyInt (255.999 * a) ≤ 255 := by
  rw [pyInt_eq_floor _ (by nlinarith)]
  refine ⟨Int.floor_nonneg.mpr (by nlinarith), ?_⟩
  have hlt : ⌊(255.999 : ℝ) * a⌋ < 256 := Int.floor_lt.mpr (by push_cast; nlinarith)
  omega

/-- Every camera ray's direction has z-component `-1`. -/
theorem cameraRay_direction_z (i j : ℕ) : (cameraRay i j).direction.z = -1 := by
  norm_num [cameraRay, lower_left_corner, origin, horizontal, vertical, focal_length,
    viewport_width, viewport_height, aspect_ratio]

theorem cameraRay_direction_ne (i j : ℕ) : (cameraRay i j).direction ≠ ⟨0, 0, 0⟩ := by
  intro hEq
  have hz := congrArg Vec3.z hEq
  rw [cameraRay_direction_z i j] at hz
  norm_num at hz

theorem cameraRay_norm_pos (i j : ℕ) : 0 < (cameraRay i j).direction.norm := by
  rw [Vec3.norm, Real.sqrt_pos, Vec3.dot, cameraRay_direction_z i j]
  nlinarith [mul_self_nonneg (cameraRay i j).direction.x,
    mul_self_nonneg (cameraRay i j).direction.y]

/-! ### Claim C9 -/

/-- C9: for every ray with nonzero direction, each component of the color
returned by `ray_color` lies in `[0, 1]`, and consequently every channel
integer emitted for a camera ray lies in `[0, 255]` although `write_color`
performs no clamping. -/
theorem c9_color_in_range (r : Ray) (_hd : r.direction ≠ ⟨0, 0, 0⟩) :
    ((0 ≤ (ray_color r).x ∧ (ray_color r).x ≤ 1) ∧
      (0 ≤ (ray_color r).y ∧ (ray_color r).y ≤ 1) ∧
      (0 ≤ (ray_color r).z ∧ (ray_color r).z ≤ 1)) ∧
    ∀ i j : ℕ,
      (0 ≤ pyInt (255.999 * (ray_color (cameraRay i j)).x) ∧
        pyInt (255.999 * (ray_color (cameraRay i j)).x) ≤ 255) ∧
      (0 ≤ pyInt (255.999 * (ray_color (cameraRay i j)).y) ∧
        pyInt (255.999 * (ray_color (cameraRay i j)).y) ≤ 255) ∧
      (0 ≤ pyInt (255.999 * (ray_color (cameraRay i j)).z) ∧
        pyInt (255.999 * (ray_color (cameraRay i j)).z) ≤ 255) := by
  refine ⟨ray_color_mem_unit r, fun i j => ?_⟩
  obtain ⟨hx, hy, hz⟩ := ray_color_mem_unit (cameraRay i j)
  exact ⟨pyInt_byteRange _ hx.1 hx.2, pyInt_byteRange _ hy.1 hy.2, pyInt_byteRange _ hz.1 hz.2⟩

/-- C9, witness: the bounds instantiated on the straight-up ray. -/
theorem c9_color_in_range_witness :
    0 ≤ (ray_color ⟨⟨0, 0, 0⟩, ⟨0, 1, 0⟩⟩).x ∧ (ray_color ⟨⟨0, 0, 0⟩, ⟨0, 1, 0⟩⟩).x ≤ 1 :=
  (c9_color_in_range ⟨⟨0, 0, 0⟩, ⟨0, 1, 0⟩⟩ (by simp)).1.1

/-! ### Claim C10 -/

/-- C10: every ray generated by the render driver has direction z-component
`-focal_length = -1.0`, hence a nonzero direction and a nonzero Euclidean
norm, so the background branch's division by the norm never divides by zero
on camera rays. -/
theorem c10_camera_direction_safe (i j : ℕ) :
    (cameraRay i j).direction.z = -focal_length ∧
    (cameraRay i j).direction.z = -1 ∧
    (cameraRay i j).direction ≠ ⟨0, 0, 0⟩ ∧
    (cameraRay i j).direction.norm ≠ 0 :=
  ⟨by rw [cameraRay_direction_z]; norm_num [focal_length], cameraRay_direction_z i j,
    cameraRay_direction_ne i j, ne_of_gt (cameraRay_norm_pos i j)⟩

end RayTracer
